import Mathlib

/-!
Shallow embedding of the BLE advertisement-normalization core of
`ble_adv_scanner.py` and `ble_basic_scanner.py` (RT-circuits/ble-tools),
together with proofs checking the natural-language specification against it.

Python strings are modelled as `List Char` (`Str`), Python byte strings as
`List Nat` (each element a byte value), insertion-ordered Python dicts as
association lists, and `datetime.now()` as an explicit `PyDateTime` argument.
-/

namespace BLETools

abbrev Str := List Char

/-- Uppercase hexadecimal digit for a value below 16, as Python's `"%X"`. -/
def hexDigitChar (n : Nat) : Char :=
  if n < 10 then Char.ofNat (48 + n) else Char.ofNat (55 + n)

/-- Digits of `n` in base 16, most significant first, empty for 0.
The first argument is structural fuel (any fuel above the digit count of
`n` gives the same value). -/
def natToHexCore : Nat → Nat → List Char
  | 0, _ => []
  | fuel + 1, n => if n = 0 then [] else natToHexCore fuel (n / 16) ++ [hexDigitChar (n % 16)]

/-- Uppercase hexadecimal rendering of a natural number, as Python's `"%X"`. -/
def natToHex (n : Nat) : Str :=
  if n = 0 then ['0'] else natToHexCore (n + 1) n

/-- Left-pad with `'0'` to width `w`, as Python's zero-padded format specs. -/
def zeroPad (w : Nat) (s : Str) : Str :=
  List.replicate (w - s.length) '0' ++ s

/-- Python's `f"{n:0wX}"`: uppercase hex, zero-padded to a minimum width. -/
def pyFormatHex (w n : Nat) : Str := zeroPad w (natToHex n)

/-- Digits of `n` in base 10, most significant first, empty for 0 (fuel first). -/
def natToDecCore : Nat → Nat → List Char
  | 0, _ => []
  | fuel + 1, n => if n = 0 then [] else natToDecCore fuel (n / 10) ++ [Char.ofNat (48 + n % 10)]

/-- Decimal rendering of a natural number, as Python's `str` on a `int >= 0`. -/
def natToDec (n : Nat) : Str :=
  if n = 0 then ['0'] else natToDecCore (n + 1) n

/-- Python's `str` on an `int`: optional minus sign followed by the digits. -/
def intToDec (i : Int) : Str :=
  if i < 0 then '-' :: natToDec i.natAbs else natToDec i.toNat

/-- Python's `data.hex().upper()` on a byte string: two uppercase hex digits
per byte, concatenated. -/
def pyHexUpper (bs : List Nat) : Str :=
  (bs.map (pyFormatHex 2)).flatten

/-- Python's `str.split(sep)` for a one-character separator: splits at every
occurrence of `sep`, and `[] ↦ [[]]` as `"".split(sep) = ['']`. -/
def pySplitOn (sep : Char) : Str → List Str
  | [] => [[]]
  | c :: cs =>
    if c = sep then [] :: pySplitOn sep cs
    else
      match pySplitOn sep cs with
      | [] => [[c]]
      | p :: ps => (c :: p) :: ps

/-- The Bluetooth SIG base-UUID suffix literal that both scanners compare
against (`uuid.endswith('-0000-1000-8000-00805f9b34fb')`). -/
def sigBaseTail : Str := ("-0000-1000-8000-00805f9b34fb").toList

/-- UUID conversion applied by both scanners to every advertised service UUID
and (in display position) to every service-data key: a 36-character UUID that
ends with the SIG base suffix, splits into 5 hyphen groups, and whose first
group starts with `0000` is replaced by the first group with the `0000`
stripped; every other string is kept as it is.  Faithful to the inline loop at
`ble_adv_scanner.py:153-166` / `ble_basic_scanner.py:154-167`. -/
def convertUuid (u : Str) : Str :=
  if u.length = 36 ∧ List.isSuffixOf sigBaseTail u = true then
    if (pySplitOn '-' u).length = 5
        ∧ List.isPrefixOf (("0000").toList) ((pySplitOn '-' u).headD []) = true then
      ((pySplitOn '-' u).headD []).drop 4
    else u
  else u

/-! ## Data model for raw advertisement events and decoded records -/

/-- Wall-clock timestamp handed to the decoder; models `datetime.now()`.
A `datetime` value carries microsecond precision. -/
structure PyDateTime where
  year : Nat
  month : Nat
  day : Nat
  hour : Nat
  minute : Nat
  second : Nat
  microsecond : Nat
  deriving DecidableEq, Repr

/-- Python's `strftime("%H:%M:%S")`: zero-padded two-digit fields. -/
def strftimeHMS (t : PyDateTime) : Str :=
  zeroPad 2 (natToDec t.hour) ++ [':'] ++ zeroPad 2 (natToDec t.minute)
    ++ [':'] ++ zeroPad 2 (natToDec t.second)

/-- Python's `strftime("%Y%m%d_%H%M%S")`, used for the export file name. -/
def strftimeStamp (t : PyDateTime) : Str :=
  zeroPad 4 (natToDec t.year) ++ zeroPad 2 (natToDec t.month) ++ zeroPad 2 (natToDec t.day)
    ++ ['_'] ++ zeroPad 2 (natToDec t.hour) ++ zeroPad 2 (natToDec t.minute)
    ++ zeroPad 2 (natToDec t.second)

/-- The `BLEDevice` argument of the per-event handlers: only its `address`
and `name` attributes are read. -/
structure BLEDeviceIn where
  address : Str
  name : Option Str
  deriving DecidableEq, Repr

/-- One raw `AdvertisementData` event from the host stack, with the fields
both scanners read.  Dicts are insertion-ordered association lists; `rssi` is
`none` when the attribute is missing or non-numeric (the `getattr(..., 'N/A')`
plus `isinstance` path). -/
structure AdvData where
  local_name : Option Str
  manufacturer_data : List (Nat × List Nat)
  service_uuids : List Str
  service_data : List (Str × List Nat)
  tx_power : Option Int
  rssi : Option Int
  platform_data : Str
  deriving DecidableEq, Repr

/-- Modelled from the spec: the `manufacturer_ids` module imported by both
scanners (`from manufacturer_ids import get_manufacturer_name`) is not under
`src/`.  Per spec section 4.2 it is a static company-id-to-name mapping whose
lookup miss returns the sentinel name `"Unknown"`; the mapping itself is
passed in as the `registry` parameter. -/
def get_manufacturer_name (registry : List (Nat × Str)) (i : Nat) : Str :=
  match registry.lookup i with
  | some n => n
  | none => ("Unknown").toList

/-- Python's string truthiness test used by `a or b` chains: `None` and the
empty string are falsy. -/
def pyOrStr (a : Option Str) (b : Str) : Str :=
  match a with
  | some s => if s.isEmpty then b else s
  | none => b

/-- The `device_info` dict emitted through the `device_found` signal. -/
structure DeviceInfo where
  address : Str
  name : Str
  manufacturer : Str
  manufacturer_id : Str
  service_uuids : Str
  service_data : Str
  rssi : Int
  last_seen : Str
  raw_manufacturer_data : List (Nat × List Nat)
  raw_service_data : List (Str × Option Str)
  raw_tx_power : Option Int
  raw_platform_data : Str
  deriving DecidableEq, Repr

/-- The manufacturer name shown by both scanners: registry lookup, replaced
by `f"0x{manufacturer_id:04X}"` when the looked-up name starts with
`"Unknown"` (`ble_adv_scanner.py:141-147`). -/
def manufacturerNameOf (registry : List (Nat × Str)) (i : Nat) : Str :=
  let n := get_manufacturer_name registry i
  if List.isPrefixOf (("Unknown").toList) n = true then ("0x").toList ++ pyFormatHex 4 i else n

/-- The `manufacturer_id` field of the record:
`f"0x{manufacturer_id:04X}" if manufacturer_id else ""` — Python truthiness,
so both `None` and the id `0` give the empty string. -/
def manufacturerIdStr (mid : Option Nat) : Str :=
  match mid with
  | some i => if i = 0 then [] else ("0x").toList ++ pyFormatHex 4 i
  | none => []

/-- First key of the manufacturer-data dict, when non-empty
(`list(manufacturer_data.keys())[0]` guarded by `if manufacturer_data:`). -/
def firstManufacturerId (md : List (Nat × List Nat)) : Option Nat :=
  (md.map Prod.fst).head?

/-- Clamped RSSI of the record: `max(rssi, -99)` when a numeric reading is
present, `-999` when not (`ble_adv_scanner.py:195-212`). -/
def rssiDecode (r : Option Int) : Int :=
  match r with
  | some v => max v (-99)
  | none => -999

/-- `ble_adv_scanner.BLEScannerWorker.process_device` as a pure function of
the registry, the capture time and the raw event (the happy path of the
`try` block; its exception path is modelled separately for the stream
claims).  Line references are to `ble_adv_scanner.py:133-222`. -/
def process_device (registry : List (Nat × Str)) (now : PyDateTime)
    (device : BLEDeviceIn) (ad : AdvData) : DeviceInfo :=
  let mid := firstManufacturerId ad.manufacturer_data
  let manufacturer_name : Str :=
    match mid with
    | some i => manufacturerNameOf registry i
    | none => []
  let converted_service_uuids := ad.service_uuids.map convertUuid
  let service_uuids_str := List.intercalate ['\n'] converted_service_uuids
  let service_data_strings :=
    ad.service_data.map (fun p => convertUuid p.1 ++ ("\ndata: ").toList ++ pyHexUpper p.2)
  let enhanced_service_data :=
    ad.service_data.map (fun p => (convertUuid p.1, some (pyHexUpper p.2)))
  let service_data_str := List.intercalate (['\n', '\n']) service_data_strings
  { address := device.address
    name := pyOrStr device.name (pyOrStr ad.local_name [])
    manufacturer := manufacturer_name
    manufacturer_id := manufacturerIdStr mid
    service_uuids := service_uuids_str
    service_data := service_data_str
    rssi := rssiDecode ad.rssi
    last_seen := strftimeHMS now
    raw_manufacturer_data := ad.manufacturer_data
    raw_service_data := enhanced_service_data
    raw_tx_power := ad.tx_power
    raw_platform_data := ad.platform_data }

/-- The combined service-UUID list of the basic scanner:
`list(set(service_uuids + service_data_uuids))`
(`ble_basic_scanner.py:147-152`).  Python's set iteration order is
unspecified, so the combination is modelled as a deduplication of the
concatenation; all claims about it are stated up to membership. -/
def basicAllServiceUuids (ad : AdvData) : List Str :=
  (ad.service_uuids ++ ad.service_data.map Prod.fst).dedup

/-- Value lookup in the `service_data` dict (`uuid in advertisement_data.service_data`). -/
def serviceDataGet (ad : AdvData) (u : Str) : Option (List Nat) :=
  (ad.service_data.find? (fun p => p.1 = u)).map Prod.snd

/-- `ble_basic_scanner.BLEScannerWorker.detection_callback` as a pure function
(the happy path of the `try` block).  Line references are to
`ble_basic_scanner.py:131-221`. -/
def detection_callback (registry : List (Nat × Str)) (now : PyDateTime)
    (device : BLEDeviceIn) (ad : AdvData) : DeviceInfo :=
  let mid := firstManufacturerId ad.manufacturer_data
  let manufacturer_name : Str :=
    match mid with
    | some i => manufacturerNameOf registry i
    | none => []
  let all_service_uuids := basicAllServiceUuids ad
  let converted_uuids := all_service_uuids.map convertUuid
  let service_uuids_str := List.intercalate ['\n'] converted_uuids
  let service_data_strings :=
    all_service_uuids.map (fun u =>
      match serviceDataGet ad u with
      | some d => pyHexUpper d
      | none => ("null").toList)
  let service_data_str := List.intercalate ['\n'] service_data_strings
  let enhanced_service_data :=
    all_service_uuids.map (fun u => (u, (serviceDataGet ad u).map pyHexUpper))
  { address := device.address
    name := pyOrStr device.name (pyOrStr ad.local_name [])
    manufacturer := manufacturer_name
    manufacturer_id := manufacturerIdStr mid
    service_uuids := service_uuids_str
    service_data := service_data_str
    rssi := rssiDecode ad.rssi
    last_seen := strftimeHMS now
    raw_manufacturer_data := ad.manufacturer_data
    raw_service_data := enhanced_service_data
    raw_tx_power := ad.tx_power
    raw_platform_data := ad.platform_data }

/-! ## Hex dump formatter (`update_manufacturer_details` /
`update_service_data_details`, `ble_adv_scanner.py:1004-1035` and
`ble_adv_scanner.py:1107-1138` — the two loops are identical) -/

/-- ASCII column rendering of one byte: printable bytes (32-126 inclusive)
as their character, every other byte as `'.'`. -/
def asciiChar (b : Nat) : Char :=
  if 32 ≤ b ∧ b ≤ 126 then Char.ofNat b else '.'

/-- One dump row: 4-digit offset, colon, the 8 hex-byte cells (short chunks
right-padded with two-space cells), two spaces, and the ASCII column between
`|` bars — the `f"{offset}: {hex_part}  |{ascii_part}|"` of the source. -/
def dumpLine (off : Nat) (chunk : List Nat) : Str :=
  let hexBytes := chunk.map (pyFormatHex 2) ++ List.replicate (8 - chunk.length) ([' ', ' '])
  let asciiChars := chunk.map asciiChar ++ List.replicate (8 - chunk.length) ' '
  pyFormatHex 4 off ++ [':', ' '] ++ List.intercalate [' '] hexBytes
    ++ [' ', ' ', '|'] ++ asciiChars ++ ['|']

/-- The dump loop `for i in range(0, len(data_bytes), 8)`, with structural
fuel (the byte count bounds the row count, so `bs.length` is enough fuel). -/
def hexDumpGo : Nat → Nat → List Nat → List Str
  | 0, _, _ => []
  | _, _, [] => []
  | fuel + 1, off, bs@(_ :: _) => dumpLine off (bs.take 8) :: hexDumpGo fuel (off + 8) (bs.drop 8)

/-- The canonical multi-line hex dump of a byte sequence. -/
def hexDump (bs : List Nat) : List Str := hexDumpGo bs.length 0 bs

/-- Modelled from the spec's words for comparison with `dumpLine`: a row whose
byte cells are exactly two hex digits each (`[high nibble, low nibble]`). -/
def specByteHex (b : Nat) : Str := [hexDigitChar (b / 16), hexDigitChar (b % 16)]

/-- Modelled from the spec's words for comparison with `dumpLine`: one row of
the claimed canonical dump shape over a given chunk. -/
def specLine (off : Nat) (chunk : List Nat) : Str :=
  pyFormatHex 4 off ++ [':', ' ']
    ++ List.intercalate [' ']
        (chunk.map specByteHex ++ List.replicate (8 - chunk.length) ([' ', ' ']))
    ++ [' ', ' ', '|'] ++ (chunk.map asciiChar ++ List.replicate (8 - chunk.length) ' ') ++ ['|']

/-- Modelled from the spec's words for comparison with `hexDump`:
`ceil(L/8)` rows, row `r` covering the 8 bytes starting at offset `8*r`. -/
def hexDumpSpec (bs : List Nat) : List Str :=
  (List.range ((bs.length + 7) / 8)).map (fun r => specLine (8 * r) ((bs.drop (8 * r)).take 8))

/-! ## Device table (`BLEScannerApp.add_device` / `clear_results` /
`export_results`, `ble_adv_scanner.py:852-902,1153-1179`; the basic scanner's
copies at `ble_basic_scanner.py:715-765,807-830` are identical) -/

/-- One display row of the results table, holding the seven column values
set by `add_device` (the RSSI cell keeps both its display text and the
integer stored for sorting). -/
structure Row where
  address : Str
  name : Str
  manufacturer : Str
  service_uuids : Str
  service_data : Str
  rssi_display : Str
  rssi_sort : Int
  last_seen : Str
  deriving DecidableEq, Repr

/-- The row written for a device record: `add_device`'s `setItem` calls,
including the `str(rssi)` versus `'N/A'` split on the `-999` sentinel. -/
def mkRow (info : DeviceInfo) : Row :=
  { address := info.address
    name := info.name
    manufacturer := info.manufacturer
    service_uuids := info.service_uuids
    service_data := info.service_data
    rssi_display := if info.rssi = -999 then ("N/A").toList else intToDec info.rssi
    rssi_sort := info.rssi
    last_seen := info.last_seen }

/-- The row update of `add_device`: scan for the first row whose address cell
matches, overwrite that row in place, or append a new row at the end. -/
def updateRows (rows : List Row) (row : Row) : List Row :=
  match rows with
  | [] => [row]
  | r :: rest => if r.address = row.address then row :: rest else r :: updateRows rest row

/-- Python dict assignment `self.devices[address] = device_info` on the
insertion-ordered dict: replace the value at the existing key in place, or
append a new binding at the end. -/
def dictSet (l : List (Str × DeviceInfo)) (k : Str) (v : DeviceInfo) :
    List (Str × DeviceInfo) :=
  match l with
  | [] => [(k, v)]
  | p :: rest => if p.1 = k then (k, v) :: rest else p :: dictSet rest k v

/-- The mutable state touched by `add_device`, `clear_results` and
`export_results`: the `self.devices` dict and the table's rows. -/
structure AppState where
  devices : List (Str × DeviceInfo)
  tableRows : List Row
  deriving DecidableEq, Repr

/-- `BLEScannerApp.add_device`. -/
def add_device (s : AppState) (info : DeviceInfo) : AppState :=
  { devices := dictSet s.devices info.address info
    tableRows := updateRows s.tableRows (mkRow info) }

/-- `BLEScannerApp.clear_results`: `self.devices.clear()` and
`self.table.setRowCount(0)`. -/
def clear_results (_s : AppState) : AppState :=
  { devices := [], tableRows := [] }

/-- The state before any advertisement arrived. -/
def initState : AppState := { devices := [], tableRows := [] }

/-- One operation on the device table. -/
inductive TableOp where
  | upsert (info : DeviceInfo)
  | clear
  deriving Repr

/-- Apply one table operation. -/
def applyOp (s : AppState) : TableOp → AppState
  | .upsert info => add_device s info
  | .clear => clear_results s

/-- Run a sequence of table operations from the empty initial state. -/
def runOps (ops : List TableOp) : AppState := ops.foldl applyOp initState

/-- `BLEScannerApp.export_results` as the pure export decision: `None` (no
file, no state change) when `self.devices` is empty, otherwise the snapshot
file's name `ble_scan_results_<YYYYMMDD_HHMMSS>.json` together with the
exported record list `list(self.devices.values())`. -/
def export_results (s : AppState) (now : PyDateTime) : Option (Str × List DeviceInfo) :=
  if s.devices.isEmpty then none
  else some (("ble_scan_results_").toList ++ strftimeStamp now ++ (".json").toList,
             s.devices.map Prod.snd)

/-! ## Event-stream error handling (`process_device`'s `try`/`except` and the
`async for` loop of `start_scanning`, `ble_adv_scanner.py:107-131,224-227`) -/

/-- A raised Python exception, by its type name and message. -/
structure PyExn where
  typeName : Str
  message : Str
  deriving DecidableEq, Repr

/-- One raw event of the scan stream. -/
structure RawEvent where
  device : BLEDeviceIn
  ad : AdvData
  deriving DecidableEq, Repr

/-- `get_detailed_error_info(error, context)` (`ble_adv_scanner.py:78-90`):
the diagnostic package joins the error type name, the error message, the
context line, the stack trace and the `get_system_info()` platform probe
output; the trace and probe output are runtime artifacts passed in. -/
def get_detailed_error_info (e : PyExn) (context traceback sysInfo : Str) : Str :=
  ("=== DETAILED ERROR INFORMATION ===\nError Type: ").toList ++ e.typeName
    ++ ("\nError Message: ").toList ++ e.message
    ++ ("\nContext: ").toList ++ context
    ++ ("\n\n=== STACK TRACE ===\n").toList ++ traceback
    ++ ("\n\n").toList ++ sysInfo

/-- The context string `process_device` passes to `get_detailed_error_info`. -/
def processDeviceContext (addr : Str) : Str :=
  ("BLE Scanner Worker - process_device for device ").toList ++ addr

/-- The message emitted through `error_occurred` by `process_device`'s
`except` branch. -/
def mkProcessErrorMsg (addr : Str) (e : PyExn) : Str :=
  ("Error processing device ").toList ++ addr ++ (": ").toList ++ e.message
    ++ ("\n\nSee terminal for detailed error information.").toList

/-- What one loop iteration makes observable. -/
inductive Emitted where
  | device_found (info : DeviceInfo)
  | error_occurred (msg : Str)
  deriving DecidableEq, Repr

/-- The observable outcome of processing one event: what was printed to the
terminal (the detailed diagnostic, on failure) and which signal was emitted. -/
structure StepResult where
  printed : Option Str
  emitted : Emitted
  deriving DecidableEq, Repr

/-- One `process_device` call with its `try`/`except`: the `attempt`
parameter is the try block's body, which either returns the decoded record
(its pure meaning is `process_device`) or raises; the `except` branch prints
the diagnostic package and emits the error signal, and never re-raises. -/
def processDeviceStep (attempt : RawEvent → Except PyExn DeviceInfo)
    (traceback sysInfo : Str) (ev : RawEvent) : StepResult :=
  match attempt ev with
  | .ok info => { printed := none, emitted := .device_found info }
  | .error e =>
    { printed := some (("BLE DEVICE PROCESSING ERROR (Terminal):\n").toList
        ++ get_detailed_error_info e (processDeviceContext ev.device.address) traceback sysInfo)
      emitted := .error_occurred (mkProcessErrorMsg ev.device.address e) }

/-- The `async for` consumer loop: every event of the stream is handed to
`process_device`, whose `except` branch swallows its failure, so each event
is processed independently of the others. -/
def runStream (attempt : RawEvent → Except PyExn DeviceInfo)
    (traceback sysInfo : Str) (events : List RawEvent) : List StepResult :=
  events.map (processDeviceStep attempt traceback sysInfo)

/-! ## Lemmas about `pySplitOn` -/

theorem pySplitOn_ne_nil (sep : Char) (l : Str) : pySplitOn sep l ≠ [] := by
  cases l with
  | nil => simp [pySplitOn]
  | cons c cs =>
    simp only [pySplitOn]
    split
    · simp
    · split <;> simp

theorem pySplitOn_length (sep : Char) (l : Str) :
    (pySplitOn sep l).length = l.count sep + 1 := by
  induction l with
  | nil => simp [pySplitOn]
  | cons c cs ih =>
    simp only [pySplitOn]
    by_cases h : c = sep
    · simp [h, ih]
    · cases he : pySplitOn sep cs with
      | nil => exact absurd he (pySplitOn_ne_nil sep cs)
      | cons p ps =>
        rw [he] at ih
        simp only [List.length_cons] at ih
        simp [h, List.count_cons]
        omega

theorem pySplitOn_headD (sep : Char) (l : Str) :
    (pySplitOn sep l).headD [] = l.takeWhile (fun c => c != sep) := by
  induction l with
  | nil => simp [pySplitOn]
  | cons c cs ih =>
    simp only [pySplitOn]
    by_cases h : c = sep
    · simp [h, List.takeWhile_cons]
    · cases he : pySplitOn sep cs with
      | nil => exact absurd he (pySplitOn_ne_nil sep cs)
      | cons p ps =>
        rw [he] at ih
        simp [h, List.takeWhile_cons, ih.symm]

theorem pySplitOn_append (sep : Char) (b : Str) :
    ∀ a : Str, sep ∉ a → pySplitOn sep (a ++ sep :: b) = a :: pySplitOn sep b := by
  intro a
  induction a with
  | nil => intro _; simp [pySplitOn]
  | cons c a' ih =>
    intro h
    have hc : ¬ c = sep := fun e => h (by simp [e])
    have ha' : sep ∉ a' := fun m => h (List.mem_cons_of_mem _ m)
    have h2 : pySplitOn sep (a'.append (sep :: b)) = a' :: pySplitOn sep b := ih ha'
    simp only [List.cons_append, pySplitOn, hc, if_false]
    rw [h2]

/-! ## UUID normalizer characterization (claim C1) -/

theorem sigBaseTail_split :
    sigBaseTail = '-' :: (("0000-1000-8000-00805f9b34fb").toList) := by decide

theorem convertUuid_sig (g : Str) (hd : ('-') ∉ g) (hl : g.length = 8)
    (hp : List.isPrefixOf (("0000").toList) g = true) :
    convertUuid (g ++ sigBaseTail) = g.drop 4 := by
  have hsplit : pySplitOn '-' (g ++ sigBaseTail)
      = g :: pySplitOn '-' (("0000-1000-8000-00805f9b34fb").toList) := by
    rw [sigBaseTail_split]
    exact pySplitOn_append '-' _ g hd
  have htail : pySplitOn '-' (("0000-1000-8000-00805f9b34fb").toList)
      = [("0000").toList, ("1000").toList, ("8000").toList, ("00805f9b34fb").toList] := by
    decide
  have hlen28 : sigBaseTail.length = 28 := by decide
  unfold convertUuid
  rw [if_pos, if_pos]
  · rw [hsplit]
    simp
  · rw [hsplit, htail]
    refine ⟨by simp, ?_⟩
    simpa using hp
  · constructor
    · simp [hl, hlen28]
    · exact List.isSuffixOf_iff_suffix.mpr (List.suffix_append g sigBaseTail)

theorem convertUuid_other (u : Str)
    (h : ¬ (u.length = 36 ∧ List.isSuffixOf sigBaseTail u = true ∧ u.count '-' = 4
            ∧ List.isPrefixOf (("0000").toList) (u.takeWhile (fun c => c != '-')) = true)) :
    convertUuid u = u := by
  unfold convertUuid
  split
  · rename_i h1
    split
    · rename_i h2
      exfalso
      apply h
      refine ⟨h1.1, h1.2, ?_, ?_⟩
      · have := pySplitOn_length '-' u
        omega
      · rw [← pySplitOn_headD '-' u]
        exact h2.2
    · rfl
  · rfl

/-- Claim C1 (corrected): the normalizer's comparison against the SIG base
suffix is case-sensitive — only the lowercase spelling of the suffix is
recognized — and the extracted four hex digits keep their original case (no
uppercasing).  Under those two corrections the claim holds: a 36-character
UUID `g ++ "-0000-1000-8000-00805f9b34fb"` whose hyphen-free first group `g`
begins with `0000` is mapped to `g` without its first four characters, and
every other input string is returned unchanged. -/
theorem C1_uuid_normalizer_amended :
    (∀ g : Str, ('-') ∉ g → g.length = 8 → List.isPrefixOf (("0000").toList) g = true →
        convertUuid (g ++ sigBaseTail) = g.drop 4)
    ∧ (∀ u : Str, ¬ (u.length = 36 ∧ List.isSuffixOf sigBaseTail u = true ∧ u.count '-' = 4
          ∧ List.isPrefixOf (("0000").toList) (u.takeWhile (fun c => c != '-')) = true) →
        convertUuid u = u) :=
  ⟨convertUuid_sig, convertUuid_other⟩

/-- Claim C1 counterexample: the UUID
`0000180F-0000-1000-8000-00805F9B34FB` matches the claim's condition (its
last four groups equal the SIG base suffix case-insensitively and its first
group begins with `0000`), so the claim demands the output `180F`; the code
returns the input unchanged because `endswith` compares case-sensitively.
Moreover a lowercase input yields lowercase output `180f`, not the claimed
uppercase normalization `180F`. -/
theorem C1_uuid_normalizer_counterexample :
    convertUuid (("0000180F-0000-1000-8000-00805F9B34FB").toList)
        = ("0000180F-0000-1000-8000-00805F9B34FB").toList
    ∧ ("0000180F-0000-1000-8000-00805F9B34FB").toList ≠ ("180F").toList
    ∧ convertUuid (("0000180f-0000-1000-8000-00805f9b34fb").toList) = ("180f").toList
    ∧ ("180f").toList ≠ ("180F").toList := by
  refine ⟨by decide, by decide, by decide, by decide⟩

/-! ## RSSI clamping (claim C3) -/

/-- Claim C3 (confirmed): both decoders store `max(reading, -99)` when a
numeric RSSI reading is present — so `-100` and `-120` become `-99` while
readings at or above `-99` such as `-60` are kept — every stored real reading
is at least `-99` (hence above the `-999` sentinel), and a missing reading is
stored as exactly `-999`. -/
theorem C3_rssi_clamp (registry : List (Nat × Str)) (now : PyDateTime)
    (dev : BLEDeviceIn) (ad : AdvData) :
    (∀ r : Int, ad.rssi = some r →
        (process_device registry now dev ad).rssi = max r (-99)
        ∧ (detection_callback registry now dev ad).rssi = max r (-99)
        ∧ (-99 : Int) ≤ (process_device registry now dev ad).rssi
        ∧ (-999 : Int) < (detection_callback registry now dev ad).rssi)
    ∧ (ad.rssi = none →
        (process_device registry now dev ad).rssi = -999
        ∧ (detection_callback registry now dev ad).rssi = -999)
    ∧ rssiDecode (some (-100)) = -99 ∧ rssiDecode (some (-120)) = -99
    ∧ rssiDecode (some (-60)) = -60 ∧ rssiDecode none = -999 := by
  have hp : (process_device registry now dev ad).rssi = rssiDecode ad.rssi := rfl
  have hd : (detection_callback registry now dev ad).rssi = rssiDecode ad.rssi := rfl
  refine ⟨?_, ?_, by decide, by decide, by decide, by decide⟩
  · intro r hr
    rw [hp, hd, hr]
    refine ⟨rfl, rfl, le_max_right r (-99), ?_⟩
    have : (-99 : Int) ≤ max r (-99) := le_max_right r (-99)
    show (-999 : Int) < max r (-99)
    omega
  · intro hr
    rw [hp, hd, hr]
    exact ⟨rfl, rfl⟩

/-- Claim C3 witness: the inner hypotheses discharged at the concrete
readings `-120` (clamped to `-99`) and at a missing reading. -/
theorem C3_rssi_clamp_witness :
    (process_device [] ⟨2024, 1, 1, 0, 0, 0, 0⟩ ⟨[], none⟩
        ⟨none, [], [], [], none, some (-120), []⟩).rssi = max (-120) (-99) :=
  ((C3_rssi_clamp [] ⟨2024, 1, 1, 0, 0, 0, 0⟩ ⟨[], none⟩
      ⟨none, [], [], [], none, some (-120), []⟩).1 (-120) rfl).1

/-! ## Last-seen timestamp (claim C8) -/

/-- Claim C8 counterexample: two capture times that differ only in the
microsecond field decode to byte-for-byte identical records, so the decoded
record does not retain the capture time with full precision — only the
second-precision rendering `strftime("%H:%M:%S")` is stored. -/
theorem C8_last_seen_counterexample :
    process_device [] ⟨2024, 1, 1, 12, 0, 0, 500000⟩ ⟨[], none⟩
        ⟨none, [], [], [], none, none, []⟩
      = process_device [] ⟨2024, 1, 1, 12, 0, 0, 0⟩ ⟨[], none⟩
        ⟨none, [], [], [], none, none, []⟩
    ∧ (⟨2024, 1, 1, 12, 0, 0, 500000⟩ : PyDateTime) ≠ ⟨2024, 1, 1, 12, 0, 0, 0⟩ := by
  exact ⟨rfl, by decide⟩

/-- Claim C8 (corrected): the record's `lastSeen` is the wall-clock capture
time at decode rendered at second precision (`"%H:%M:%S"`) — full precision
is not retained internally — and the display row shows that same
second-precision string verbatim. -/
theorem C8_last_seen_amended (registry : List (Nat × Str)) (now : PyDateTime)
    (dev : BLEDeviceIn) (ad : AdvData) :
    (process_device registry now dev ad).last_seen = strftimeHMS now
    ∧ (detection_callback registry now dev ad).last_seen = strftimeHMS now
    ∧ (∀ info : DeviceInfo, (mkRow info).last_seen = info.last_seen) :=
  ⟨rfl, rfl, fun _ => rfl⟩

/-! ## Export guard (claim C10) -/

/-- Claim C10 (confirmed): `export_results` writes nothing when the device
table is empty, and produces the snapshot file, named
`ble_scan_results_<YYYYMMDD_HHMMSS>.json` and holding every stored record,
exactly when at least one device record exists at the time of the request. -/
theorem C10_export_guard (s : AppState) (now : PyDateTime) :
    ((export_results s now).isSome ↔ s.devices ≠ [])
    ∧ (s.devices = [] → export_results s now = none)
    ∧ (∀ name records, export_results s now = some (name, records) →
        name = ("ble_scan_results_").toList ++ strftimeStamp now ++ (".json").toList
        ∧ records = s.devices.map Prod.snd) := by
  unfold export_results
  by_cases h : s.devices.isEmpty
  · rw [List.isEmpty_iff] at h
    simp [h]
  · rw [List.isEmpty_iff] at h
    simp only [h, if_neg]
    refine ⟨by simp [h], by simp [h], ?_⟩
    intro name records hsome
    simp only [List.isEmpty_eq_true, h, if_false, Option.some.injEq, Prod.mk.injEq] at hsome
    exact ⟨hsome.1.symm, hsome.2.symm⟩

/-! ## Manufacturer identifier and name (claim C4) -/

/-- Claim C4 (code_bug): evaluation at the failing input.  For an event whose
manufacturer-data dict has the valid company id `0x0000` as its (first) key,
the decoded record's `manufacturer_id` field is the empty string — the guard
`f"0x{manufacturer_id:04X}" if manufacturer_id else ""` treats the id `0` as
falsy — although the first key is `0` and although a nonzero id such as
`0x004C` is rendered `"0x004C"`; the name lookup for the same event still
resolves through the registry. -/
theorem C4_manufacturer_id_zero_dropped :
    (process_device [(0, ("Ericsson Technology Licensing").toList)] ⟨2024, 1, 1, 0, 0, 0, 0⟩
        ⟨("AA:BB:CC:DD:EE:FF").toList, none⟩
        ⟨none, [(0, [1, 2])], [], [], none, none, []⟩).manufacturer_id = []
    ∧ (process_device [(0, ("Ericsson Technology Licensing").toList)] ⟨2024, 1, 1, 0, 0, 0, 0⟩
        ⟨("AA:BB:CC:DD:EE:FF").toList, none⟩
        ⟨none, [(0, [1, 2])], [], [], none, none, []⟩).manufacturer
      = ("Ericsson Technology Licensing").toList
    ∧ firstManufacturerId [(0, [1, 2])] = some 0
    ∧ manufacturerIdStr (some 76) = ("0x004C").toList
    ∧ manufacturerNameOf [] 39321 = ("0x9999").toList := by
  refine ⟨by decide, by decide, by decide, by decide, by decide⟩

/-! ## Service-UUID union (claim C2) -/

/-- Claim C2 (corrected): only `ble_basic_scanner`'s decoder folds the
service-data keys into the service-UUID list; there the displayed list holds
(up to the unspecified iteration order of Python's `set`) exactly the
normalized forms of the UUIDs appearing in the advertised list or as
service-data keys, so a UUID appearing only as a service-data key is
included.  `ble_adv_scanner`'s decoder instead normalizes only the advertised
service-UUID list, omitting service-data-only UUIDs. -/
theorem C2_service_uuid_union_amended (registry : List (Nat × Str)) (now : PyDateTime)
    (dev : BLEDeviceIn) (ad : AdvData) :
    (∀ u : Str, u ∈ (basicAllServiceUuids ad).map convertUuid ↔
        ∃ v, (v ∈ ad.service_uuids ∨ v ∈ ad.service_data.map Prod.fst) ∧ convertUuid v = u)
    ∧ (detection_callback registry now dev ad).service_uuids
        = List.intercalate ['\n'] ((basicAllServiceUuids ad).map convertUuid)
    ∧ (process_device registry now dev ad).service_uuids
        = List.intercalate ['\n'] (ad.service_uuids.map convertUuid) := by
  refine ⟨?_, rfl, rfl⟩
  intro u
  simp [basicAllServiceUuids]

/-- Claim C2 counterexample: an event advertising no service UUIDs but
carrying service data keyed by `0000180f-0000-1000-8000-00805f9b34fb`.  The
claim demands that the decoded record's service-UUID list contain the
normalized key `180f`; `ble_adv_scanner.process_device` produces an empty
list (the empty joined string), while `ble_basic_scanner.detection_callback`
does produce `180f`. -/
theorem C2_service_uuid_union_counterexample :
    (process_device [] ⟨2024, 1, 1, 0, 0, 0, 0⟩ ⟨[], none⟩
        ⟨none, [], [], [((("0000180f-0000-1000-8000-00805f9b34fb").toList), [1])],
         none, none, []⟩).service_uuids = []
    ∧ (detection_callback [] ⟨2024, 1, 1, 0, 0, 0, 0⟩ ⟨[], none⟩
        ⟨none, [], [], [((("0000180f-0000-1000-8000-00805f9b34fb").toList), [1])],
         none, none, []⟩).service_uuids = ("180f").toList := by
  exact ⟨by decide, by decide⟩

/-! ## Device-table lemmas (claims C6 and C9) -/

theorem updateRows_idem (rows : List Row) (row : Row) :
    updateRows (updateRows rows row) row = updateRows rows row := by
  induction rows with
  | nil => simp [updateRows]
  | cons r rest ih =>
    by_cases h : r.address = row.address
    · simp [updateRows, h]
    · simp [updateRows, h, ih]

theorem dictSet_idem (l : List (Str × DeviceInfo)) (k : Str) (v : DeviceInfo) :
    dictSet (dictSet l k v) k v = dictSet l k v := by
  induction l with
  | nil => simp [dictSet]
  | cons p rest ih =>
    by_cases h : p.1 = k
    · simp [dictSet, h]
    · simp [dictSet, h, ih]

/-- Claim C9 (confirmed): `add_device` is idempotent on repeated identical
input — upserting the same record twice leaves the device dict and the
display rows (size, order and every field) exactly as one upsert does. -/
theorem C9_upsert_idempotent (s : AppState) (info : DeviceInfo) :
    add_device (add_device s info) info = add_device s info := by
  simp [add_device, updateRows_idem, dictSet_idem]

/-- Claim C9 witness: idempotency applied at a concrete state and record. -/
theorem C9_upsert_idempotent_witness :
    add_device (add_device initState
        ⟨("AA").toList, [], [], [], [], [], -60, [], [], [], none, []⟩)
        ⟨("AA").toList, [], [], [], [], [], -60, [], [], [], none, []⟩
      = add_device initState
        ⟨("AA").toList, [], [], [], [], [], -60, [], [], [], none, []⟩ :=
  C9_upsert_idempotent initState ⟨("AA").toList, [], [], [], [], [], -60, [], [], [], none, []⟩

theorem mem_updateRows_address {rows : List Row} {row : Row} {a : Str}
    (h : a ∈ (updateRows rows row).map Row.address) :
    a ∈ rows.map Row.address ∨ a = row.address := by
  induction rows with
  | nil =>
    right
    simpa [updateRows] using h
  | cons r rest ih =>
    by_cases hr : r.address = row.address
    · simp only [updateRows, hr, if_pos, List.map_cons, List.mem_cons] at h
      rcases h with h | h
      · right; exact h
      · left
        simp only [List.map_cons, List.mem_cons]
        right
        exact h
    · simp only [updateRows, hr, if_neg, not_false_iff, List.map_cons, List.mem_cons] at h
      rcases h with h | h
      · left
        simp only [List.map_cons, List.mem_cons]
        left
        exact h
      · rcases ih h with h' | h'
        · left
          simp only [List.map_cons, List.mem_cons]
          right
          exact h'
        · right; exact h'

theorem nodup_updateRows {rows : List Row} (row : Row)
    (h : (rows.map Row.address).Nodup) :
    ((updateRows rows row).map Row.address).Nodup := by
  induction rows with
  | nil => simp [updateRows]
  | cons r rest ih =>
    simp only [List.map_cons, List.nodup_cons] at h
    by_cases hr : r.address = row.address
    · simp only [updateRows, hr, if_pos, List.map_cons, List.nodup_cons]
      exact ⟨by rw [← hr]; exact h.1, h.2⟩
    · simp only [updateRows, hr, if_neg, not_false_iff, List.map_cons, List.nodup_cons]
      refine ⟨?_, ih h.2⟩
      intro hmem
      rcases mem_updateRows_address hmem with h' | h'
      · exact h.1 h'
      · exact hr h'

theorem mem_dictSet_key {l : List (Str × DeviceInfo)} {k a : Str} {v : DeviceInfo}
    (h : a ∈ (dictSet l k v).map Prod.fst) :
    a ∈ l.map Prod.fst ∨ a = k := by
  induction l with
  | nil =>
    right
    simpa [dictSet] using h
  | cons p rest ih =>
    by_cases hp : p.1 = k
    · simp only [dictSet, hp, if_pos, List.map_cons, List.mem_cons] at h
      rcases h with h | h
      · right; exact h
      · left
        simp only [List.map_cons, List.mem_cons]
        right
        exact h
    · simp only [dictSet, hp, if_neg, not_false_iff, List.map_cons, List.mem_cons] at h
      rcases h with h | h
      · left
        simp only [List.map_cons, List.mem_cons]
        left
        exact h
      · rcases ih h with h' | h'
        · left
          simp only [List.map_cons, List.mem_cons]
          right
          exact h'
        · right; exact h'

theorem nodup_dictSet {l : List (Str × DeviceInfo)} (k : Str) (v : DeviceInfo)
    (h : (l.map Prod.fst).Nodup) :
    ((dictSet l k v).map Prod.fst).Nodup := by
  induction l with
  | nil => simp [dictSet]
  | cons p rest ih =>
    simp only [List.map_cons, List.nodup_cons] at h
    by_cases hp : p.1 = k
    · simp only [dictSet, hp, if_pos, List.map_cons, List.nodup_cons]
      exact ⟨by rw [← hp]; exact h.1, h.2⟩
    · simp only [dictSet, hp, if_neg, not_false_iff, List.map_cons, List.nodup_cons]
      refine ⟨?_, ih h.2⟩
      intro hmem
      rcases mem_dictSet_key hmem with h' | h'
      · exact h.1 h'
      · exact hp h'

/-- The one-record-per-address invariant of the application state. -/
def AddrNodup (s : AppState) : Prop :=
  (s.tableRows.map Row.address).Nodup ∧ (s.devices.map Prod.fst).Nodup

theorem addrNodup_applyOp {s : AppState} (op : TableOp) (h : AddrNodup s) :
    AddrNodup (applyOp s op) := by
  cases op with
  | upsert info =>
    exact ⟨nodup_updateRows (mkRow info) h.1, nodup_dictSet info.address info h.2⟩
  | clear => exact ⟨List.nodup_nil, List.nodup_nil⟩

theorem addrNodup_foldl (ops : List TableOp) :
    ∀ s : AppState, AddrNodup s → AddrNodup (ops.foldl applyOp s) := by
  induction ops with
  | nil => intro s h; exact h
  | cons op rest ih =>
    intro s h
    exact ih (applyOp s op) (addrNodup_applyOp op h)

theorem updateRows_replace (row old : Row) (post : List Row) :
    ∀ pre : List Row, row.address ∉ pre.map Row.address → old.address = row.address →
      updateRows (pre ++ old :: post) row = pre ++ row :: post := by
  intro pre
  induction pre with
  | nil =>
    intro _ hold
    simp [updateRows, hold]
  | cons p pre' ih =>
    intro hpre hold
    have hp : ¬ p.address = row.address := by
      intro e
      exact hpre (by simp [e])
    have hpre' : row.address ∉ pre'.map Row.address := by
      intro m
      exact hpre (by simp [m])
    have h2 : updateRows (pre'.append (old :: post)) row = pre' ++ row :: post :=
      ih hpre' hold
    simp only [List.cons_append, updateRows, hp, if_neg, not_false_iff]
    rw [h2]

theorem updateRows_append (row : Row) :
    ∀ rows : List Row, row.address ∉ rows.map Row.address →
      updateRows rows row = rows ++ [row] := by
  intro rows
  induction rows with
  | nil => intro _; simp [updateRows]
  | cons r rest ih =>
    intro h
    have hr : ¬ r.address = row.address := by
      intro e
      exact h (by simp [e])
    have h2 : updateRows rest row = rest ++ [row] :=
      ih (by intro m; exact h (by simp [m]))
    simp only [updateRows, hr, if_neg, not_false_iff, List.cons_append]
    rw [h2]

theorem dictSet_replace (k : Str) (v : DeviceInfo) (old : Str × DeviceInfo)
    (post : List (Str × DeviceInfo)) :
    ∀ pre : List (Str × DeviceInfo), k ∉ pre.map Prod.fst → old.1 = k →
      dictSet (pre ++ old :: post) k v = pre ++ (k, v) :: post := by
  intro pre
  induction pre with
  | nil =>
    intro _ hold
    simp [dictSet, hold]
  | cons p pre' ih =>
    intro hpre hold
    have hp : ¬ p.1 = k := by
      intro e
      exact hpre (by rw [← e]; exact List.mem_map_of_mem Prod.fst (List.mem_cons_self p pre'))
    have h2 : dictSet (pre'.append (old :: post)) k v = pre' ++ (k, v) :: post :=
      ih (by intro m; exact hpre (by rw [List.map_cons]; exact List.mem_cons_of_mem p.1 m)) hold
    simp only [List.cons_append, dictSet, hp, if_neg, not_false_iff]
    rw [h2]

theorem dictSet_append (k : Str) (v : DeviceInfo) :
    ∀ l : List (Str × DeviceInfo), k ∉ l.map Prod.fst →
      dictSet l k v = l ++ [(k, v)] := by
  intro l
  induction l with
  | nil => intro _; simp [dictSet]
  | cons p rest ih =>
    intro h
    have hp : ¬ p.1 = k := by
      intro e
      exact h (by rw [← e]; exact List.mem_map_of_mem Prod.fst (List.mem_cons_self p rest))
    have h2 : dictSet rest k v = rest ++ [(k, v)] :=
      ih (by intro m; exact h (by rw [List.map_cons]; exact List.mem_cons_of_mem p.1 m))
    simp only [dictSet, hp, if_neg, not_false_iff, List.cons_append]
    rw [h2]

/-- Claim C6 (confirmed): after any sequence of upserts and clears from the
empty state, the table and the device dict hold at most one entry per
address; an upsert whose address is already present overwrites the first
matching row (and dict binding) in place, preserving every other entry, the
order and the size; an upsert with a new address appends at the end; and
`clear_results` — the only removing operation — resets to the empty state. -/
theorem C6_table_invariants :
    (∀ ops : List TableOp,
        ((runOps ops).tableRows.map Row.address).Nodup
        ∧ ((runOps ops).devices.map Prod.fst).Nodup)
    ∧ (∀ (pre post : List Row) (old row : Row),
        row.address ∉ pre.map Row.address → old.address = row.address →
        updateRows (pre ++ old :: post) row = pre ++ row :: post)
    ∧ (∀ (rows : List Row) (row : Row), row.address ∉ rows.map Row.address →
        updateRows rows row = rows ++ [row])
    ∧ (∀ (pre post : List (Str × DeviceInfo)) (old : Str × DeviceInfo)
          (k : Str) (v : DeviceInfo), k ∉ pre.map Prod.fst → old.1 = k →
        dictSet (pre ++ old :: post) k v = pre ++ (k, v) :: post)
    ∧ (∀ (l : List (Str × DeviceInfo)) (k : Str) (v : DeviceInfo),
        k ∉ l.map Prod.fst → dictSet l k v = l ++ [(k, v)])
    ∧ (∀ s : AppState, clear_results s = initState) := by
  refine ⟨?_, ?_, ?_, ?_, ?_, fun _ => rfl⟩
  · intro ops
    exact addrNodup_foldl ops initState ⟨List.nodup_nil, List.nodup_nil⟩
  · intro pre post old row h1 h2
    exact updateRows_replace row old post pre h1 h2
  · intro rows row h
    exact updateRows_append row rows h
  · intro pre post old k v h1 h2
    exact dictSet_replace k v old post pre h1 h2
  · intro l k v h
    exact dictSet_append k v l h

/-! ## Stream error recovery (claim C7) -/

/-- Claim C7 (confirmed): a decode failure on one event never aborts the
stream.  Whatever the try-block body does (`attempt` is the body, whose pure
meaning is `process_device` and which may raise any exception), when it
raises on event `ev` the loop's output splits cleanly around that event —
every earlier and every later event is still processed, only the offending
one is replaced by its error step — the emitted signal is the structured
error message carrying the offending address, the terminal diagnostic is the
full package whose text contains the error kind, the offending address and
the platform probe output, and the output stream keeps one entry per input
event. -/
theorem C7_stream_skip_and_continue
    (attempt : RawEvent → Except PyExn DeviceInfo) (traceback sysInfo : Str)
    (es₁ es₂ : List RawEvent) (ev : RawEvent) (e : PyExn)
    (hfail : attempt ev = Except.error e) :
    runStream attempt traceback sysInfo (es₁ ++ ev :: es₂)
      = runStream attempt traceback sysInfo es₁
        ++ processDeviceStep attempt traceback sysInfo ev
          :: runStream attempt traceback sysInfo es₂
    ∧ (processDeviceStep attempt traceback sysInfo ev).emitted
        = Emitted.error_occurred (mkProcessErrorMsg ev.device.address e)
    ∧ (∃ p q, mkProcessErrorMsg ev.device.address e = p ++ ev.device.address ++ q)
    ∧ (processDeviceStep attempt traceback sysInfo ev).printed
        = some (("BLE DEVICE PROCESSING ERROR (Terminal):\n").toList
            ++ get_detailed_error_info e (processDeviceContext ev.device.address)
                traceback sysInfo)
    ∧ (∃ p q, get_detailed_error_info e (processDeviceContext ev.device.address)
          traceback sysInfo = p ++ e.typeName ++ q)
    ∧ (∃ p q, get_detailed_error_info e (processDeviceContext ev.device.address)
          traceback sysInfo = p ++ ev.device.address ++ q)
    ∧ (∃ p q, get_detailed_error_info e (processDeviceContext ev.device.address)
          traceback sysInfo = p ++ sysInfo ++ q)
    ∧ (runStream attempt traceback sysInfo (es₁ ++ ev :: es₂)).length
        = es₁.length + 1 + es₂.length := by
  refine ⟨?_, ?_, ?_, ?_, ?_, ?_, ?_, ?_⟩
  · simp [runStream]
  · simp [processDeviceStep, hfail]
  · exact ⟨("Error processing device ").toList,
      (": ").toList ++ e.message
        ++ ("\n\nSee terminal for detailed error information.").toList,
      by simp [mkProcessErrorMsg]⟩
  · simp [processDeviceStep, hfail]
  · exact ⟨("=== DETAILED ERROR INFORMATION ===\nError Type: ").toList,
      ("\nError Message: ").toList ++ e.message
        ++ ("\nContext: ").toList ++ processDeviceContext ev.device.address
        ++ ("\n\n=== STACK TRACE ===\n").toList ++ traceback
        ++ ("\n\n").toList ++ sysInfo,
      by simp [get_detailed_error_info]⟩
  · exact ⟨("=== DETAILED ERROR INFORMATION ===\nError Type: ").toList ++ e.typeName
        ++ ("\nError Message: ").toList ++ e.message
        ++ ("\nContext: ").toList ++ ("BLE Scanner Worker - process_device for device ").toList,
      ("\n\n=== STACK TRACE ===\n").toList ++ traceback ++ ("\n\n").toList ++ sysInfo,
      by simp [get_detailed_error_info, processDeviceContext]⟩
  · exact ⟨("=== DETAILED ERROR INFORMATION ===\nError Type: ").toList ++ e.typeName
        ++ ("\nError Message: ").toList ++ e.message
        ++ ("\nContext: ").toList ++ processDeviceContext ev.device.address
        ++ ("\n\n=== STACK TRACE ===\n").toList ++ traceback ++ ("\n\n").toList,
      [], by simp [get_detailed_error_info]⟩
  · simp [runStream]
    omega

/-- Claim C7 witness: the failure hypothesis discharged with a concrete body
that raises on the concrete event of a three-event stream. -/
theorem C7_stream_skip_and_continue_witness :
    runStream (fun _ => Except.error (⟨("ValueError").toList, ("boom").toList⟩ : PyExn))
        [] [] ([⟨⟨("E1").toList, none⟩, ⟨none, [], [], [], none, none, []⟩⟩]
          ++ ⟨⟨("E2").toList, none⟩, ⟨none, [], [], [], none, none, []⟩⟩
            :: [⟨⟨("E3").toList, none⟩, ⟨none, [], [], [], none, none, []⟩⟩])
      = runStream (fun _ => Except.error (⟨("ValueError").toList, ("boom").toList⟩ : PyExn))
          [] [] [⟨⟨("E1").toList, none⟩, ⟨none, [], [], [], none, none, []⟩⟩]
        ++ processDeviceStep
            (fun _ => Except.error (⟨("ValueError").toList, ("boom").toList⟩ : PyExn))
            [] [] ⟨⟨("E2").toList, none⟩, ⟨none, [], [], [], none, none, []⟩⟩
          :: runStream
              (fun _ => Except.error (⟨("ValueError").toList, ("boom").toList⟩ : PyExn))
              [] [] [⟨⟨("E3").toList, none⟩, ⟨none, [], [], [], none, none, []⟩⟩] :=
  (C7_stream_skip_and_continue
    (fun _ => Except.error (⟨("ValueError").toList, ("boom").toList⟩ : PyExn)) [] []
    [⟨⟨("E1").toList, none⟩, ⟨none, [], [], [], none, none, []⟩⟩]
    [⟨⟨("E3").toList, none⟩, ⟨none, [], [], [], none, none, []⟩⟩]
    ⟨⟨("E2").toList, none⟩, ⟨none, [], [], [], none, none, []⟩⟩
    ⟨("ValueError").toList, ("boom").toList⟩ rfl).1

/-! ## Hex dump shape (claim C5) -/

set_option maxRecDepth 8000 in
theorem pyFormatHex2_eq : ∀ b < 256, pyFormatHex 2 b = specByteHex b := by decide

theorem dumpLine_eq_specLine (off : Nat) (chunk : List Nat) (h : ∀ b ∈ chunk, b < 256) :
    dumpLine off chunk = specLine off chunk := by
  unfold dumpLine specLine
  rw [List.map_congr_left (fun b hb => pyFormatHex2_eq b (h b hb))]

theorem hexDumpGo_eq : ∀ (fuel off : Nat) (bs : List Nat), bs.length ≤ fuel →
    (∀ b ∈ bs, b < 256) →
    hexDumpGo fuel off bs
      = (List.range ((bs.length + 7) / 8)).map
          (fun r => specLine (off + 8 * r) ((bs.drop (8 * r)).take 8)) := by
  intro fuel
  induction fuel with
  | zero =>
    intro off bs hle _
    have hnil : bs = [] := List.eq_nil_of_length_eq_zero (Nat.le_zero.mp hle)
    subst hnil
    simp [hexDumpGo]
  | succ fuel ih =>
    intro off bs hle hb
    cases bs with
    | nil => simp [hexDumpGo]
    | cons x xs =>
      have hrows : ((x :: xs).length + 7) / 8 = (((x :: xs).drop 8).length + 7) / 8 + 1 := by
        simp only [List.length_cons, List.length_drop]
        omega
      have ihdrop := ih (off + 8) ((x :: xs).drop 8)
        (by rw [List.length_drop]; simp only [List.length_cons] at hle ⊢; omega)
        (fun b hbm => hb b (List.drop_subset 8 (x :: xs) hbm))
      have hhead : specLine (off + 8 * 0) (((x :: xs).drop (8 * 0)).take 8)
          = dumpLine off ((x :: xs).take 8) := by
        rw [dumpLine_eq_specLine off _ (fun b hbm => hb b (List.take_subset 8 (x :: xs) hbm))]
        simp
      have htail : (List.range ((((x :: xs).drop 8).length + 7) / 8)).map
            ((fun r => specLine (off + 8 * r) (((x :: xs).drop (8 * r)).take 8)) ∘ Nat.succ)
          = hexDumpGo fuel (off + 8) ((x :: xs).drop 8) := by
        rw [ihdrop]
        apply List.map_congr_left
        intro r _
        simp only [Function.comp_apply]
        have e2 : ((x :: xs).drop 8).drop (8 * r) = (x :: xs).drop (8 * (r + 1)) := by
          rw [List.drop_drop]
          congr 1
          omega
        rw [e2]
        congr 1
        omega
      simp only [hexDumpGo]
      rw [hrows, List.range_succ_eq_map]
      simp only [List.map_cons, List.map_map]
      rw [hhead, htail]

/-- Claim C5 (confirmed): for every byte sequence, the dump produced by the
code's 8-byte chunking loop is exactly the claimed canonical shape — one row
per `ceil(L/8)` bytes-of-8 group, each row being the zero-padded 4-digit hex
offset, the 8 space-separated two-hex-digit byte cells with `8 - (L mod 8)`
two-space placeholder cells on a short final row, and the ASCII column
bracketed by bars that renders bytes 32-126 as their character and every
other byte as a dot. -/
theorem C5_hexdump_canonical (bs : List Nat) (h : ∀ b ∈ bs, b < 256) :
    hexDump bs = hexDumpSpec bs
    ∧ (hexDump bs).length = (bs.length + 7) / 8
    ∧ (bs.length % 8 ≠ 0 →
        8 - ((bs.drop (8 * ((bs.length + 7) / 8 - 1))).take 8).length = 8 - bs.length % 8) := by
  have hmain : hexDump bs = hexDumpSpec bs := by
    unfold hexDump hexDumpSpec
    rw [hexDumpGo_eq bs.length 0 bs le_rfl h]
    apply List.map_congr_left
    intro r _
    simp
  refine ⟨hmain, ?_, ?_⟩
  · rw [hmain]
    unfold hexDumpSpec
    simp
  · intro hm
    simp only [List.length_take, List.length_drop]
    omega

/-- Claim C5 witness: the byte bound discharged on a concrete 9-byte
sequence (two rows, final row 7 placeholder pairs). -/
theorem C5_hexdump_canonical_witness :
    hexDump [0, 65, 255, 7, 8, 9, 10, 11, 12] = hexDumpSpec [0, 65, 255, 7, 8, 9, 10, 11, 12] :=
  (C5_hexdump_canonical [0, 65, 255, 7, 8, 9, 10, 11, 12] (by decide)).1

end BLETools
